import Mathlib

/-!
# Verification development for `scripts/upload_data_to_blob/upload.go`

A shallow embedding of the folder-upload tool.  Go `string`s are Lean `String`s
(the only byte-level operations the program performs look for the ASCII bytes
`\` and `/`, which never occur inside a multi-byte UTF-8 sequence, so working on
characters agrees with working on bytes).  Everything outside the program
(environment variables, the file system, the Azure SDK) is a field of `World`;
every call the program makes into it that has an observable effect is recorded
in a trace of `Event`s.
-/

namespace Upload

/-! ## Go standard library: `strings` -/

/-- Scanner behind `strings.ReplaceAll` for a non-empty `old`: the counter holds
how many characters of a match that was just replaced are still to be skipped,
so matches are taken left to right without overlap. -/
def replaceScan (old new : List Char) : Nat → List Char → List Char
  | _, [] => []
  | skip + 1, _ :: cs => replaceScan old new skip cs
  | 0, c :: cs =>
    if old.isPrefixOf (c :: cs) then new ++ replaceScan old new (old.length - 1) cs
    else c :: replaceScan old new 0 cs

/-- Go `strings.ReplaceAll(s, old, new)`.  With an empty `old` Go inserts `new`
in front of every character and at the end. -/
def strings_ReplaceAll (s old new : String) : String :=
  if old.data = [] then
    String.mk (new.data ++ s.data.flatMap (fun c => c :: new.data))
  else
    String.mk (replaceScan old.data new.data 0 s.data)

/-- Go `strings.HasSuffix(s, suffix)`. -/
def strings_HasSuffix (s suffix : String) : Bool :=
  suffix.data.isSuffixOf s.data

/-- Go `strings.TrimSuffix(s, suffix)`: `s[:len(s)-len(suffix)]` when `s` ends
in `suffix`, and `s` unchanged otherwise.  At most one copy is removed. -/
def strings_TrimSuffix (s suffix : String) : String :=
  if strings_HasSuffix s suffix then
    String.mk (s.data.take (s.data.length - suffix.data.length))
  else s

/-! ## Data model -/

/-- The `Config` struct. -/
structure Config where
  StorageAccount : String
  ContainerName : String
  SubFolder : String
  LocalFolder : String
  ConnectionString : String
  deriving DecidableEq, Repr

/-- Go `error` values as the program can tell them apart: the two sentinels that
`filepath.WalkDir` compares against, and every other error, by its message. -/
inductive Error where
  | SkipDir
  | SkipAll
  | msg (text : String)
  deriving DecidableEq, Repr

/-- The text `%v` / `%w` prints for an error. -/
def Error.text : Error → String
  | .SkipDir => "skip this directory"
  | .SkipAll => "skip everything and stop the walk"
  | .msg t => t

/-- Go `fmt.Errorf(prefix + "%w", err)`: a fresh error (never one of the
sentinels) whose message ends with the message of `err`. -/
def wrapf (pre : String) (err : Error) : Error :=
  .msg (pre ++ err.text)

/-- Outcome of `os.Stat` as `validateConfig` looks at it. -/
inductive StatResult where
  | ok (isDir : Bool)
  | notExist
  | otherErr (text : String)
  deriving DecidableEq, Repr

/-- Go `os.IsNotExist(err)` applied to the error of an `os.Stat` call (false for
a nil error). -/
def StatResult.isNotExist : StatResult → Bool
  | .notExist => true
  | _ => false

/-- A directory tree as `os.Lstat` / `os.ReadDir` show it.  A `file` is any entry
that is not a directory.  A `dir` carries the error of `os.ReadDir` on it, if
any, and the entries `os.ReadDir` returned (sorted by name, as Go returns them). -/
inductive FsNode where
  | file (name : String)
  | dir (name : String) (readErr : Option String) (children : List FsNode)
  deriving Repr

/-- Name of a directory entry (`d.Name()`). -/
def FsNode.name : FsNode → String
  | .file n => n
  | .dir n _ _ => n

/-- The `fs.DirEntry` handed to the walk callback, as far as the program reads
it. -/
structure DirEntry where
  Name : String
  IsDir : Bool
  deriving DecidableEq, Repr

/-- The `*azblob.Client`, identified by how it was constructed. -/
inductive Client where
  | fromConnectionString (connectionString : String)
  | fromServiceURL (serviceURL : String)
  deriving DecidableEq, Repr

/-- Everything outside the program.  An `Option String` result is the error
message of a failed call, `none` for success.  The outcome of a call is a
function of its arguments: in one run the program opens and uploads each path
of the tree at most once. -/
structure World where
  /-- The process environment: the value of each variable that is set. -/
  env : String → Option String
  /-- Result of `os.Stat`. -/
  stat : String → StatResult
  /-- Result of `os.Lstat` on the walk root, with the tree found below it. -/
  lstat : String → Except String FsNode
  /-- Function `filepath.Join` on a directory path and an entry name. -/
  join : String → String → String
  /-- Function `filepath.Rel`. -/
  rel : String → String → Except String String
  /-- Result of `os.Open`. -/
  openFile : String → Option String
  /-- Result of `azblob.NewClientFromConnectionString`. -/
  newClientFromConnectionString : String → Option String
  /-- Result of `azidentity.NewDefaultAzureCredential`. -/
  newDefaultAzureCredential : Option String
  /-- Result of `azblob.NewClient` on a service URL. -/
  newClient : String → Option String
  /-- Result of `client.CreateContainer`. -/
  createContainer : Client → String → Option String
  /-- Result of `client.UploadFile` for container, blob name and local path. -/
  clientUploadFile : Client → String → String → String → Option String

/-- Observable calls, in program order. -/
inductive Event where
  | newClientFromConnectionString (connectionString : String)
  | newDefaultAzureCredential
  | newClient (serviceURL : String)
  | createContainer (containerName : String) (err : Option String)
  | uploadFile (containerName filePath blobName : String) (err : Option Error)
  | print (text : String)
  deriving DecidableEq, Repr

/-- Events so far, oldest first. -/
abbrev Trace := List Event

/-! ## Configuration resolver -/

/-- Go `os.Getenv`: the value of the variable, the empty string when it is not
set. -/
def os_Getenv (w : World) (key : String) : String :=
  match w.env key with
  | some value => value
  | none => ""

/-- Function `getValueOrEnv`. -/
def getValueOrEnv (w : World) (value envVar : String) : String :=
  if value ≠ "" then value else os_Getenv w envVar

/-- Function `loadConfig`. -/
def loadConfig (w : World) (account container subFolder folder connectionString : String) :
    Config :=
  { StorageAccount := getValueOrEnv w account "AZURE_STORAGE_ACCOUNT"
    ContainerName := getValueOrEnv w container "AZURE_STORAGE_CONTAINER"
    SubFolder := getValueOrEnv w subFolder "AZURE_STORAGE_SUBFOLDER"
    LocalFolder := getValueOrEnv w folder "LOCAL_FOLDER"
    ConnectionString := getValueOrEnv w connectionString "AZURE_STORAGE_CONNECTION_STRING" }

/-- Function `validateConfig`; `none` is Go's `nil`. -/
def validateConfig (w : World) (config : Config) : Option Error :=
  if config.LocalFolder = "" then
    some (.msg "local folder is required (use -folder or LOCAL_FOLDER env var)")
  else if config.ContainerName = "" then
    some (.msg "container name is required (use -container or AZURE_STORAGE_CONTAINER env var)")
  else if config.StorageAccount = "" ∧ config.ConnectionString = "" then
    some (.msg "either storage account name (use -account or AZURE_STORAGE_ACCOUNT env var) or connection string is required")
  else if (w.stat config.LocalFolder).isNotExist then
    some (.msg ("local folder \x27" ++ config.LocalFolder ++ "\x27 does not exist"))
  else none

/-! ## Go standard library: `filepath.WalkDir` -/

/-- The type `fs.WalkDirFunc`, returning its error and the events it caused.  The
entry is `none` only for the call that reports a failed `os.Lstat` of the root. -/
abbrev WalkDirFunc := String → Option DirEntry → Option Error → Option Error × Trace

mutual
/-- Go `filepath.walkDir`: call the function on the entry; for a directory read
it (reporting a read error by a second call on the same path) and descend into
the entries in order, each under the joined path.  `SkipDir` returned for a
directory is swallowed. -/
def walkDir (join : String → String → String) (fn : WalkDirFunc) (path : String) :
    FsNode → Option Error × Trace
  | .file name => fn path (some ⟨name, false⟩) none
  | .dir name readErr children =>
    match fn path (some ⟨name, true⟩) none with
    | (some err, t) => (if err = .SkipDir then none else some err, t)
    | (none, t) =>
      match readErr with
      | some e =>
        match fn path (some ⟨name, true⟩) (some (.msg e)) with
        | (some err, t2) => (if err = .SkipDir then none else some err, t ++ t2)
        | (none, t2) =>
          ((walkEntries join fn path children).1, t ++ t2 ++ (walkEntries join fn path children).2)
      | none => ((walkEntries join fn path children).1, t ++ (walkEntries join fn path children).2)
/-- The loop of `filepath.walkDir` over the entries of a directory: `SkipDir`
from an entry ends the loop, any other error is returned. -/
def walkEntries (join : String → String → String) (fn : WalkDirFunc) (path : String) :
    List FsNode → Option Error × Trace
  | [] => (none, [])
  | d1 :: rest =>
    match walkDir join fn (join path d1.name) d1 with
    | (some err, t) => (if err = .SkipDir then none else some err, t)
    | (none, t) => ((walkEntries join fn path rest).1, t ++ (walkEntries join fn path rest).2)
end

/-- Go `filepath.WalkDir`. -/
def WalkDir (w : World) (root : String) (fn : WalkDirFunc) : Option Error × Trace :=
  let r := match w.lstat root with
    | .error e => fn root none (some (.msg e))
    | .ok node => walkDir w.join fn root node
  (if r.1 = some .SkipDir ∨ r.1 = some .SkipAll then none else r.1, r.2)

/-! ## Folder uploader -/

/-- Function `createBlobClient`. -/
def createBlobClient (w : World) (config : Config) : Except Error Client × Trace :=
  if config.ConnectionString ≠ "" then
    match w.newClientFromConnectionString config.ConnectionString with
    | some e => (.error (.msg e), [.newClientFromConnectionString config.ConnectionString])
    | none => (.ok (.fromConnectionString config.ConnectionString),
        [.newClientFromConnectionString config.ConnectionString])
  else
    match w.newDefaultAzureCredential with
    | some e => (.error (wrapf "failed to create credential: " (.msg e)),
        [.newDefaultAzureCredential])
    | none =>
      let serviceURL := "https://" ++ config.StorageAccount ++ ".blob.core.windows.net/"
      match w.newClient serviceURL with
      | some e => (.error (.msg e), [.newDefaultAzureCredential, .newClient serviceURL])
      | none => (.ok (.fromServiceURL serviceURL),
          [.newDefaultAzureCredential, .newClient serviceURL])

/-- Function `uploadFile`. -/
def uploadFile (w : World) (client : Client) (containerName filePath blobName : String) :
    Option Error :=
  match w.openFile filePath with
  | some e => some (wrapf ("failed to open file " ++ filePath ++ ": ") (.msg e))
  | none => (w.clientUploadFile client containerName blobName filePath).map Error.msg

/-- The blob name the walk callback of `uploadFolder` computes from the relative
path (source lines 128-134). -/
def blobName (config : Config) (relPath : String) : String :=
  let blobName := strings_ReplaceAll relPath "\\" "/"
  if config.SubFolder ≠ "" then
    strings_TrimSuffix config.SubFolder "/" ++ "/" ++ blobName
  else blobName

/-- The function literal `uploadFolder` passes to `filepath.WalkDir`.  A nil
entry without an error (which `WalkDir` never passes) would make `d.IsDir()`
dereference nil. -/
def walkFn (w : World) (config : Config) (blobClient : Client) : WalkDirFunc :=
  fun path d err =>
    match err with
    | some e => (some e, [])
    | none =>
      match d with
      | none => (some (.msg "invalid memory address or nil pointer dereference"), [])
      | some d =>
        if d.IsDir then (none, [])
        else
          match w.rel config.LocalFolder path with
          | .error e =>
            (some (wrapf ("failed to get relative path for " ++ path ++ ": ") (.msg e)), [])
          | .ok relPath =>
            match uploadFile w blobClient config.ContainerName path (blobName config relPath) with
            | some e =>
              (some (wrapf ("failed to upload " ++ path ++ ": ") e),
                [.uploadFile config.ContainerName path (blobName config relPath) (some e)])
            | none =>
              (none,
                [.uploadFile config.ContainerName path (blobName config relPath) none,
                 .print ("Uploaded: " ++ path ++ " -> " ++ blobName config relPath ++ "\n")])

/-- Function `uploadFolder`. -/
def uploadFolder (w : World) (config : Config) : Option Error × Trace :=
  match createBlobClient w config with
  | (.error err, t) => (some (wrapf "failed to create blob client: " err), t)
  | (.ok blobClient, t) =>
    let created := w.createContainer blobClient config.ContainerName
    let t1 := t ++ [.createContainer config.ContainerName created] ++
      (match created with
       | some e => [.print ("Container creation result (might already exist): " ++ e ++ "\n")]
       | none => [])
    let r := WalkDir w config.LocalFolder (walkFn w config blobClient)
    (r.1, t1 ++ r.2)

/-- The command line flags of `main`. -/
structure Flags where
  account : String
  container : String
  subfolder : String
  folder : String
  connection : String
  help : Bool
  deriving DecidableEq, Repr

/-- How the process ends: normally, or through `log.Fatalf` with its message. -/
inductive Exit where
  | ok
  | fatal (message : String)
  deriving DecidableEq, Repr

/-- Function `printUsage`. -/
def printUsage : Trace :=
  [ "Azure Blob Storage Folder Upload Tool",
    "=====================================",
    "",
    "Usage:",
    "  upload [options]",
    "",
    "Options:",
    "  -account     Azure Storage Account name",
    "  -container   Container name (required)",
    "  -subfolder   Subfolder in container (optional)",
    "  -folder      Local folder to upload (required)",
    "  -connection  Azure Storage connection string (optional)",
    "  -help        Show this help message",
    "",
    "Environment Variables:",
    "  AZURE_STORAGE_ACCOUNT           Storage account name",
    "  AZURE_STORAGE_CONTAINER         Container name",
    "  AZURE_STORAGE_SUBFOLDER         Subfolder in container",
    "  LOCAL_FOLDER                    Local folder to upload",
    "  AZURE_STORAGE_CONNECTION_STRING Connection string",
    "",
    "Examples:",
    "  # Upload using command line arguments",
    "  upload -account mystorageaccount -container mycontainer -folder ./data",
    "",
    "  # Upload to a subfolder",
    "  upload -account mystorageaccount -container mycontainer -subfolder documents -folder ./docs",
    "",
    "  # Upload using environment variables",
    "  set AZURE_STORAGE_ACCOUNT=mystorageaccount",
    "  set AZURE_STORAGE_CONTAINER=mycontainer",
    "  set LOCAL_FOLDER=./data",
    "  upload",
    "",
    "  # Upload using connection string",
    "  upload -connection \"DefaultEndpointsProtocol=https;AccountName=...\" -container mycontainer -folder ./data",
    "",
    "Authentication:",
    "  The tool uses Azure DefaultAzureCredential by default, which tries:",
    "  1. Environment variables (AZURE_CLIENT_ID, AZURE_CLIENT_SECRET, AZURE_TENANT_ID)",
    "  2. Managed Identity",
    "  3. Azure CLI authentication",
    "  4. Azure PowerShell authentication",
    "  5. Interactive browser authentication",
    "",
    "  Alternatively, you can use a connection string with -connection parameter."
  ].map (fun line => Event.print (line ++ "\n"))

/-- Function `main`. -/
def main (w : World) (flags : Flags) : Exit × Trace :=
  if flags.help then (.ok, printUsage)
  else
    let config := loadConfig w flags.account flags.container flags.subfolder flags.folder
      flags.connection
    match validateConfig w config with
    | some err => (.fatal ("Configuration error: " ++ err.text), [])
    | none =>
      match uploadFolder w config with
      | (some err, t) => (.fatal ("Upload failed: " ++ err.text), t)
      | (none, t) =>
        (.ok, t ++ [.print ("Successfully uploaded folder \x27" ++ config.LocalFolder ++
          "\x27 to container \x27" ++ config.ContainerName ++ "\x27\n")])

/-! ## Reading a trace -/

/-- The calls of `uploadFile` in a trace, as pairs of local path and blob name. -/
def uploadsOf : Trace → List (String × String)
  | [] => []
  | .uploadFile _ filePath blob _ :: rest => (filePath, blob) :: uploadsOf rest
  | _ :: rest => uploadsOf rest

/-- The calls of `uploadFile` in a trace that returned without error. -/
def completedOf : Trace → List (String × String)
  | [] => []
  | .uploadFile _ filePath blob none :: rest => (filePath, blob) :: completedOf rest
  | _ :: rest => completedOf rest

/-! ## The sequence of entries a walk yields -/

/-- One call of the walk function: the path, the entry, and the error reported
with it, if any. -/
structure Visit where
  path : String
  entry : Option DirEntry
  err : Option String
  deriving DecidableEq, Repr

/-- Whether the visit hands the callback a non-directory entry without error:
one of the files the walk yields. -/
def Visit.isFile (v : Visit) : Bool :=
  match v.err, v.entry with
  | none, some d => !d.IsDir
  | _, _ => false

mutual
/-- The calls `filepath.walkDir` makes on a tree, in order, as long as the
function keeps returning nil. -/
def visits (join : String → String → String) (path : String) : FsNode → List Visit
  | .file name => [⟨path, some ⟨name, false⟩, none⟩]
  | .dir name readErr children =>
    ⟨path, some ⟨name, true⟩, none⟩ ::
      ((match readErr with
        | some e => [⟨path, some ⟨name, true⟩, some e⟩]
        | none => []) ++ visitsEntries join path children)
/-- The calls made for the entries of a directory, in order. -/
def visitsEntries (join : String → String → String) (path : String) :
    List FsNode → List Visit
  | [] => []
  | d1 :: rest => visits join (join path d1.name) d1 ++ visitsEntries join path rest
end

/-- The calls `filepath.WalkDir` makes from a root, in order, as long as the
function keeps returning nil. -/
def walkVisits (w : World) (root : String) : List Visit :=
  match w.lstat root with
  | .error e => [⟨root, none, some e⟩]
  | .ok node => visits w.join root node

/-- Apply a walk function to a sequence of visits, stopping at the first error
it returns. -/
def runVisits (fn : WalkDirFunc) : List Visit → Option Error × Trace
  | [] => (none, [])
  | v :: rest =>
    match fn v.path v.entry (v.err.map Error.msg) with
    | (some err, t) => (some err, t)
    | (none, t) => ((runVisits fn rest).1, t ++ (runVisits fn rest).2)

/-- The blob name `uploadFolder` gives the file of a visit (the empty string when
`filepath.Rel` fails, in which case nothing is uploaded). -/
def keyOf (w : World) (config : Config) (v : Visit) : String :=
  match w.rel config.LocalFolder v.path with
  | .ok relPath => blobName config relPath
  | .error _ => ""

/-- The files among a sequence of visits, each as local path and blob name. -/
def filesOf (w : World) (config : Config) (vs : List Visit) : List (String × String) :=
  (vs.filter Visit.isFile).map (fun v => (v.path, keyOf w config v))

/-- Replace every backslash of a character sequence by a forward slash. -/
def slashed (cs : List Char) : List Char :=
  cs.map (fun c => if c = '\\' then '/' else c)

/-- A walk function that reports every error it is handed and never answers with
one of the sentinels. -/
def Strict (fn : WalkDirFunc) : Prop :=
  ∀ path d (e : Option String),
    (fn path d (e.map Error.msg)).1 ≠ some .SkipDir ∧
    (fn path d (e.map Error.msg)).1 ≠ some .SkipAll ∧
    (e ≠ none → (fn path d (e.map Error.msg)).1 ≠ none)


/-! ## Concrete hosts for the worked examples -/

/-- Function `filepath.Join` on a clean directory path and an entry name, for a
host whose path separator is `sep`. -/
def hostJoin (sep dir name : String) : String :=
  dir ++ sep ++ name

/-- Function `filepath.Rel` on clean paths, for a host whose path separator is
`sep`: the target itself gives `.`, a path below the base gives what follows the
base and one separator. -/
def hostRel (sep base target : String) : Except String String :=
  if target = base then .ok "."
  else if (base ++ sep).data.isPrefixOf target.data then
    .ok (String.mk (target.data.drop (base ++ sep).data.length))
  else .error ("Rel: can\x27t make " ++ target ++ " relative to " ++ base)

/-- A host with path separator `sep` on which every path resolves to `root`, no
environment variable is set and every call succeeds. -/
def hostWorld (sep : String) (root : FsNode) : World where
  env := fun _ => none
  stat := fun _ => .ok (match root with | .dir _ _ _ => true | .file _ => false)
  lstat := fun _ => .ok root
  join := hostJoin sep
  rel := hostRel sep
  openFile := fun _ => none
  newClientFromConnectionString := fun _ => none
  newDefaultAzureCredential := none
  newClient := fun _ => none
  createContainer := fun _ _ => none
  clientUploadFile := fun _ _ _ _ => none

/-- The source tree of the worked examples: `a.txt` and `sub/b.txt`. -/
def exampleTree : FsNode :=
  .dir "data" none [.file "a.txt", .dir "sub" none [.file "b.txt"]]

/-- A configuration for the worked examples with the given sub-folder. -/
def exampleConfig (subFolder : String) : Config where
  StorageAccount := "acct"
  ContainerName := "box"
  SubFolder := subFolder
  LocalFolder := "data"
  ConnectionString := ""

/-- A source tree with three files: `a.txt`, `sub/b.txt` and `z.txt`. -/
def threeFileTree : FsNode :=
  .dir "data" none [.file "a.txt", .dir "sub" none [.file "b.txt"], .file "z.txt"]

/-- The host with separator `/` and the three-file tree, on which the upload of
the blob `sub/b.txt` fails. -/
def failingWorld : World :=
  { hostWorld "/" threeFileTree with
    clientUploadFile := fun _ _ blob _ =>
      if blob = "sub/b.txt" then some "503 Server Busy" else none }

/-- The host with separator `/` and the example tree, on which `os.Stat` fails
with an error other than "does not exist". -/
def statDeniedWorld : World :=
  { hostWorld "/" exampleTree with stat := fun _ => .otherErr "permission denied" }


/-! ## Lemmas on the string functions -/

theorem replaceScan_single (a b : Char) (cs : List Char) :
    replaceScan [a] [b] 0 cs = cs.map (fun c => if c = a then b else c) := by
  induction cs with
  | nil => rfl
  | cons c cs ih =>
    by_cases h : c = a
    · subst h
      simp [replaceScan, List.isPrefixOf, ih]
    · have h2 : ¬ a = c := fun e => h e.symm
      simp [replaceScan, List.isPrefixOf, ih, h, h2]

theorem ReplaceAll_backslash_data (s : String) :
    (strings_ReplaceAll s "\\" "/").data = slashed s.data := by
  have h1 : ("\\" : String).data = ['\\'] := rfl
  have h2 : ("/" : String).data = ['/'] := rfl
  simp [strings_ReplaceAll, h1, h2, replaceScan_single, slashed]

theorem slashed_no_backslash (cs : List Char) : '\\' ∉ slashed cs := by
  intro h
  simp only [slashed, List.mem_map] at h
  obtain ⟨c, _, hc⟩ := h
  by_cases h' : c = '\\'
  · simp [h'] at hc
  · simp [h'] at hc

theorem HasSuffix_slash_iff (s : String) :
    strings_HasSuffix s "/" = true ↔ s.data.getLast? = some '/' := by
  have h2 : ("/" : String).data = ['/'] := rfl
  simp only [strings_HasSuffix, h2, List.isSuffixOf_iff_suffix]
  constructor
  · rintro ⟨t, ht⟩
    rw [← ht]; simp
  · intro h
    rw [List.getLast?_eq_some_iff] at h
    obtain ⟨t, ht⟩ := h
    exact ⟨t, ht.symm⟩

theorem TrimSuffix_of_not (s suf : String) (h : strings_HasSuffix s suf = false) :
    strings_TrimSuffix s suf = s := by
  simp [strings_TrimSuffix, h]

theorem TrimSuffix_append (s suf : String) : strings_TrimSuffix (s ++ suf) suf = s := by
  have h : strings_HasSuffix (s ++ suf) suf = true := by
    simp [strings_HasSuffix, List.isSuffixOf_iff_suffix]
  simp [strings_TrimSuffix, h]

/-! ## Lemmas on the walk -/

theorem runVisits_cons_none (fn : WalkDirFunc) (v : Visit) (rest : List Visit) (t : Trace)
    (h : fn v.path v.entry (v.err.map Error.msg) = (none, t)) :
    runVisits fn (v :: rest) = ((runVisits fn rest).1, t ++ (runVisits fn rest).2) := by
  simp [runVisits, h]

theorem runVisits_cons_some (fn : WalkDirFunc) (v : Visit) (rest : List Visit) (t : Trace)
    (e : Error) (h : fn v.path v.entry (v.err.map Error.msg) = (some e, t)) :
    runVisits fn (v :: rest) = (some e, t) := by
  simp [runVisits, h]

theorem runVisits_append_none (fn : WalkDirFunc) (a b : List Visit)
    (h : (runVisits fn a).1 = none) :
    runVisits fn (a ++ b) = ((runVisits fn b).1, (runVisits fn a).2 ++ (runVisits fn b).2) := by
  induction a with
  | nil => simp [runVisits]
  | cons v a ih =>
    rcases hv : fn v.path v.entry (v.err.map Error.msg) with ⟨_ | e, t⟩
    · rw [runVisits_cons_none fn v a t hv] at h
      rw [List.cons_append, runVisits_cons_none fn v (a ++ b) t hv, ih h,
        runVisits_cons_none fn v a t hv]
      simp
    · rw [runVisits_cons_some fn v a t e hv] at h
      simp at h

theorem runVisits_append_some (fn : WalkDirFunc) (a b : List Visit) (e : Error)
    (h : (runVisits fn a).1 = some e) :
    runVisits fn (a ++ b) = runVisits fn a := by
  induction a with
  | nil => simp [runVisits] at h
  | cons v a ih =>
    rcases hv : fn v.path v.entry (v.err.map Error.msg) with ⟨_ | e2, t⟩
    · rw [runVisits_cons_none fn v a t hv] at h
      rw [List.cons_append, runVisits_cons_none fn v (a ++ b) t hv, ih h,
        runVisits_cons_none fn v a t hv]
    · rw [List.cons_append, runVisits_cons_some fn v (a ++ b) t e2 hv,
        runVisits_cons_some fn v a t e2 hv]

theorem runVisits_ne_skip (fn : WalkDirFunc) (hfn : Strict fn) (vs : List Visit) :
    (runVisits fn vs).1 ≠ some .SkipDir ∧ (runVisits fn vs).1 ≠ some .SkipAll := by
  induction vs with
  | nil => simp [runVisits]
  | cons v a ih =>
    rcases hv : fn v.path v.entry (v.err.map Error.msg) with ⟨_ | e2, t⟩
    · rw [runVisits_cons_none fn v a t hv]; exact ih
    · rw [runVisits_cons_some fn v a t e2 hv]
      have := hfn v.path v.entry v.err
      rw [hv] at this
      exact ⟨this.1, this.2.1⟩

mutual
theorem walkDir_eq_runVisits (join : String → String → String) (fn : WalkDirFunc)
    (hfn : Strict fn) (path : String) :
    ∀ node, walkDir join fn path node = runVisits fn (visits join path node)
  | .file name => by
    simp only [walkDir, visits, runVisits]
    rcases h : fn path (some ⟨name, false⟩) none with ⟨_ | e, t⟩ <;> simp [h]
  | .dir name readErr children => by
    have ih := walkEntries_eq_runVisits join fn hfn path children
    have h0 := hfn path (some ⟨name, true⟩) none
    simp only [Option.map_none'] at h0
    simp only [walkDir, visits, runVisits, Option.map_none']
    rcases h : fn path (some ⟨name, true⟩) none with ⟨_ | e, t⟩
    · cases readErr with
      | none => simp [ih]
      | some re =>
        have h1 := hfn path (some ⟨name, true⟩) (some re)
        simp only [Option.map_some'] at h1
        simp only [List.singleton_append, runVisits, Option.map_some']
        rcases h' : fn path (some ⟨name, true⟩) (some (Error.msg re)) with ⟨_ | e2, t2⟩
        · rw [h'] at h1; simp at h1
        · rw [h'] at h1
          have : e2 ≠ .SkipDir := fun c => h1.1 (by simp [c])
          simp [this]
    · rw [h] at h0
      have : e ≠ .SkipDir := fun c => h0.1 (by simp [c])
      simp [this]
theorem walkEntries_eq_runVisits (join : String → String → String) (fn : WalkDirFunc)
    (hfn : Strict fn) (path : String) :
    ∀ nodes, walkEntries join fn path nodes = runVisits fn (visitsEntries join path nodes)
  | [] => by simp [walkEntries, visitsEntries, runVisits]
  | d1 :: rest => by
    have ih1 := walkDir_eq_runVisits join fn hfn (join path d1.name) d1
    have ih2 := walkEntries_eq_runVisits join fn hfn path rest
    have hs := runVisits_ne_skip fn hfn (visits join (join path d1.name) d1)
    simp only [walkEntries, visitsEntries, ih1, ih2]
    rcases h : runVisits fn (visits join (join path d1.name) d1) with ⟨_ | e, t⟩
    · rw [runVisits_append_none fn _ _ (by rw [h])]
      simp [h]
    · rw [runVisits_append_some fn _ _ e (by rw [h])]
      rw [h] at hs
      have : e ≠ .SkipDir := fun c => hs.1 (by simp [c])
      simp [this, h]
end

theorem WalkDir_eq_runVisits (w : World) (root : String) (fn : WalkDirFunc) (hfn : Strict fn) :
    WalkDir w root fn = runVisits fn (walkVisits w root) := by
  have key : ∀ vs, (if (runVisits fn vs).1 = some Error.SkipDir ∨
      (runVisits fn vs).1 = some Error.SkipAll then none else (runVisits fn vs).1,
      (runVisits fn vs).2) = runVisits fn vs := by
    intro vs
    have := runVisits_ne_skip fn hfn vs
    simp [this.1, this.2]
  unfold WalkDir walkVisits
  cases h : w.lstat root with
  | error e =>
    have : fn root none (some (Error.msg e)) = runVisits fn [⟨root, none, some e⟩] := by
      simp only [runVisits, Option.map_some']
      rcases h' : fn root none (some (Error.msg e)) with ⟨_ | e2, t2⟩ <;> simp
    simp only [this]
    exact key _
  | ok node =>
    simp only [walkDir_eq_runVisits w.join fn hfn root node]
    exact key _

theorem walkFn_strict (w : World) (config : Config) (c : Client) : Strict (walkFn w config c) := by
  intro path d e
  cases e with
  | some e => simp [walkFn]
  | none =>
    simp only [Option.map_none', walkFn]
    cases d with
    | none => simp
    | some d =>
      by_cases hd : d.IsDir = true
      · simp [hd]
      · simp only [hd]
        cases hr : w.rel config.LocalFolder path with
        | error e => simp [wrapf]
        | ok r =>
          cases hu : uploadFile w c config.ContainerName path (blobName config r) <;>
            simp [wrapf, hu]

/-! ## Lemmas on traces and on `uploadFolder` -/

theorem uploadsOf_append (a b : Trace) : uploadsOf (a ++ b) = uploadsOf a ++ uploadsOf b := by
  induction a with
  | nil => rfl
  | cons ev a ih => cases ev <;> simp [uploadsOf, ih]

theorem completedOf_append (a b : Trace) :
    completedOf (a ++ b) = completedOf a ++ completedOf b := by
  induction a with
  | nil => rfl
  | cons ev a ih =>
    cases ev with
    | uploadFile c p b e => cases e <;> simp [completedOf, ih]
    | _ => simp [completedOf, ih]

theorem createBlobClient_uploads (w : World) (config : Config) :
    uploadsOf (createBlobClient w config).2 = [] ∧
      completedOf (createBlobClient w config).2 = [] := by
  unfold createBlobClient
  split
  · split <;> simp [uploadsOf, completedOf]
  · split
    · simp [uploadsOf, completedOf]
    · dsimp only
      split <;> simp [uploadsOf, completedOf]

theorem createBlobClient_trace_ne_nil (w : World) (config : Config) :
    (createBlobClient w config).2 ≠ [] := by
  unfold createBlobClient
  split
  · split <;> simp
  · split
    · simp
    · dsimp only
      split <;> simp

theorem uploadFolder_of_client (w : World) (config : Config) (client : Client) (t : Trace)
    (h : createBlobClient w config = (.ok client, t)) :
    (uploadFolder w config).1 =
        (runVisits (walkFn w config client) (walkVisits w config.LocalFolder)).1 ∧
      uploadsOf (uploadFolder w config).2 =
        uploadsOf (runVisits (walkFn w config client) (walkVisits w config.LocalFolder)).2 ∧
      completedOf (uploadFolder w config).2 =
        completedOf (runVisits (walkFn w config client) (walkVisits w config.LocalFolder)).2 := by
  have hc := createBlobClient_uploads w config
  rw [h] at hc
  simp only [uploadFolder, h, WalkDir_eq_runVisits w _ _ (walkFn_strict w config client)]
  refine ⟨trivial, ?_, ?_⟩
  · cases w.createContainer client config.ContainerName <;>
      simp [uploadsOf_append, hc.1, uploadsOf]
  · cases w.createContainer client config.ContainerName <;>
      simp [completedOf_append, hc.2, completedOf]

theorem uploadFolder_of_no_client (w : World) (config : Config) (err : Error) (t : Trace)
    (h : createBlobClient w config = (.error err, t)) :
    uploadFolder w config = (some (wrapf "failed to create blob client: " err), t) := by
  simp [uploadFolder, h]

theorem uploadFolder_trace_ne_nil (w : World) (config : Config) :
    (uploadFolder w config).2 ≠ [] := by
  have h := createBlobClient_trace_ne_nil w config
  rcases hc : createBlobClient w config with ⟨_ | c, t⟩
  · rw [hc] at h
    simpa [uploadFolder, hc] using h
  · rw [hc] at h
    simp [uploadFolder, hc]

/-! ### The walk function, case by case -/

theorem walkFn_err (w : World) (config : Config) (c : Client) (path : String)
    (d : Option DirEntry) (e : Error) :
    walkFn w config c path d (some e) = (some e, []) := rfl

theorem walkFn_dir (w : World) (config : Config) (c : Client) (path : String)
    (d : DirEntry) (hd : d.IsDir = true) :
    walkFn w config c path (some d) none = (none, []) := by
  simp [walkFn, hd]

theorem walkFn_file_ok (w : World) (config : Config) (c : Client) (path : String)
    (d : DirEntry) (r : String) (hd : d.IsDir = false)
    (hr : w.rel config.LocalFolder path = .ok r)
    (hu : uploadFile w c config.ContainerName path (blobName config r) = none) :
    walkFn w config c path (some d) none =
      (none, [.uploadFile config.ContainerName path (blobName config r) none,
        .print ("Uploaded: " ++ path ++ " -> " ++ blobName config r ++ "\n")]) := by
  simp [walkFn, hd, hr, hu]

theorem walkFn_file_fail (w : World) (config : Config) (c : Client) (path : String)
    (d : DirEntry) (r : String) (e : Error) (hd : d.IsDir = false)
    (hr : w.rel config.LocalFolder path = .ok r)
    (hu : uploadFile w c config.ContainerName path (blobName config r) = some e) :
    walkFn w config c path (some d) none =
      (some (.msg ("failed to upload " ++ path ++ ": " ++ e.text)),
        [.uploadFile config.ContainerName path (blobName config r) (some e)]) := by
  simp [walkFn, hd, hr, hu, wrapf]

/-- Every call of `uploadFile` the walk function makes is for the path it was
handed, under the blob name of that path. -/
theorem walkFn_uploads (w : World) (config : Config) (c : Client) (path : String)
    (d : Option DirEntry) (e : Option Error) :
    ∀ x ∈ uploadsOf (walkFn w config c path d e).2,
      ∃ r, w.rel config.LocalFolder path = .ok r ∧ x = (path, blobName config r) := by
  intro x hx
  cases e with
  | some e => simp [walkFn, uploadsOf] at hx
  | none =>
    cases d with
    | none => simp [walkFn, uploadsOf] at hx
    | some d =>
      by_cases hd : d.IsDir = true
      · simp [walkFn, hd, uploadsOf] at hx
      · cases hr : w.rel config.LocalFolder path with
        | error e => simp [walkFn, hd, hr, uploadsOf] at hx
        | ok r =>
          refine ⟨r, rfl, ?_⟩
          cases hu : uploadFile w c config.ContainerName path (blobName config r) <;>
            simpa [walkFn, hd, hr, hu, uploadsOf] using hx

theorem runVisits_uploads (w : World) (config : Config) (c : Client) (vs : List Visit) :
    ∀ x ∈ uploadsOf (runVisits (walkFn w config c) vs).2,
      ∃ r, w.rel config.LocalFolder x.1 = .ok r ∧ x.2 = blobName config r := by
  induction vs with
  | nil => simp [runVisits, uploadsOf]
  | cons v vs ih =>
    intro x hx
    have hv := walkFn_uploads w config c v.path v.entry (v.err.map Error.msg)
    rcases h : walkFn w config c v.path v.entry (v.err.map Error.msg) with ⟨_ | e, t⟩
    · rw [runVisits_cons_none _ v vs t h] at hx
      rw [h] at hv
      simp only [uploadsOf_append, List.mem_append] at hx
      rcases hx with hx | hx
      · obtain ⟨r, hr, rfl⟩ := hv x hx
        exact ⟨r, hr, rfl⟩
      · exact ih x hx
    · rw [runVisits_cons_some _ v vs t e h] at hx
      rw [h] at hv
      obtain ⟨r, hr, rfl⟩ := hv x hx
      exact ⟨r, hr, rfl⟩

/-! ## Lemmas on the sequence of visits -/

mutual
theorem visits_entry (join : String → String → String) (path : String) :
    ∀ node, ∀ v ∈ visits join path node, v.entry ≠ none
  | .file name => by simp [visits]
  | .dir name readErr children => by
    have ih := visitsEntries_entry join path children
    intro v hv
    cases readErr with
    | none =>
      simp only [visits, List.nil_append, List.mem_cons] at hv
      rcases hv with rfl | hv
      · simp
      · exact ih v hv
    | some e =>
      simp only [visits, List.singleton_append, List.mem_cons] at hv
      rcases hv with rfl | rfl | hv
      · simp
      · simp
      · exact ih v hv
theorem visitsEntries_entry (join : String → String → String) (path : String) :
    ∀ nodes, ∀ v ∈ visitsEntries join path nodes, v.entry ≠ none
  | [] => by simp [visitsEntries]
  | d1 :: rest => by
    have ih1 := visits_entry join (join path d1.name) d1
    have ih2 := visitsEntries_entry join path rest
    intro v hv
    simp only [visitsEntries, List.mem_append] at hv
    rcases hv with hv | hv
    · exact ih1 v hv
    · exact ih2 v hv
end

theorem walkVisits_entry (w : World) (root : String) :
    ∀ v ∈ walkVisits w root, v.err = none → v.entry ≠ none := by
  intro v hv he
  unfold walkVisits at hv
  cases h : w.lstat root with
  | error e =>
    rw [h] at hv
    simp only [List.mem_singleton] at hv
    subst hv
    simp at he
  | ok node =>
    rw [h] at hv
    exact visits_entry w.join root node v hv

theorem filesOf_append (w : World) (config : Config) (a b : List Visit) :
    filesOf w config (a ++ b) = filesOf w config a ++ filesOf w config b := by
  simp [filesOf]

theorem filesOf_cons_file (w : World) (config : Config) (v : Visit) (vs : List Visit)
    (h : v.isFile = true) :
    filesOf w config (v :: vs) = (v.path, keyOf w config v) :: filesOf w config vs := by
  simp [filesOf, h]

theorem filesOf_cons_other (w : World) (config : Config) (v : Visit) (vs : List Visit)
    (h : v.isFile = false) :
    filesOf w config (v :: vs) = filesOf w config vs := by
  simp [filesOf, h]

/-- A stretch of the walk in which no error is reported and every file is
uploaded: the walk goes on, and the uploads are those of its files. -/
theorem runVisits_clean (w : World) (config : Config) (c : Client) (vs : List Visit)
    (h : ∀ v ∈ vs, v.err = none ∧ v.entry ≠ none ∧
      (v.isFile = true → ∃ r, w.rel config.LocalFolder v.path = .ok r ∧
        uploadFile w c config.ContainerName v.path (blobName config r) = none)) :
    (runVisits (walkFn w config c) vs).1 = none ∧
      uploadsOf (runVisits (walkFn w config c) vs).2 = filesOf w config vs ∧
      completedOf (runVisits (walkFn w config c) vs).2 = filesOf w config vs := by
  induction vs with
  | nil => simp [runVisits, uploadsOf, completedOf, filesOf]
  | cons v vs ih =>
    have ih := ih (fun x hx => h x (List.mem_cons_of_mem _ hx))
    obtain ⟨he, hd, hf⟩ := h v (List.mem_cons_self _ _)
    obtain ⟨d, hd⟩ := Option.ne_none_iff_exists'.mp hd
    by_cases hdir : d.IsDir = true
    · have hnf : v.isFile = false := by simp [Visit.isFile, he, hd, hdir]
      have hstep : walkFn w config c v.path v.entry (v.err.map Error.msg) = (none, []) := by
        rw [he, hd]; exact walkFn_dir w config c v.path d hdir
      rw [runVisits_cons_none _ v vs [] hstep, filesOf_cons_other w config v vs hnf]
      simpa using ih
    · have hdir : d.IsDir = false := by simpa using hdir
      have hisf : v.isFile = true := by simp [Visit.isFile, he, hd, hdir]
      obtain ⟨r, hr, hu⟩ := hf hisf
      have hstep := walkFn_file_ok w config c v.path d r hdir hr hu
      have hstep2 : walkFn w config c v.path v.entry (v.err.map Error.msg) =
          (none, [.uploadFile config.ContainerName v.path (blobName config r) none,
            .print ("Uploaded: " ++ v.path ++ " -> " ++ blobName config r ++ "\n")]) := by
        rw [he, hd]; exact hstep
      have hk : keyOf w config v = blobName config r := by simp [keyOf, hr]
      rw [runVisits_cons_none _ v vs _ hstep2, filesOf_cons_file w config v vs hisf, hk]
      simp [uploadsOf, completedOf, ih]

/-! ## Lemmas on the blob name -/

theorem blobName_empty (config : Config) (r : String) (h : config.SubFolder = "") :
    blobName config r = String.mk (slashed r.data) := by
  simp only [blobName, h, ne_eq, not_true_eq_false, ↓reduceIte]
  apply String.ext
  rw [ReplaceAll_backslash_data]

theorem blobName_nonempty (config : Config) (r : String) (h : config.SubFolder ≠ "") :
    blobName config r =
      strings_TrimSuffix config.SubFolder "/" ++ "/" ++ String.mk (slashed r.data) := by
  have hr : strings_ReplaceAll r "\\" "/" = String.mk (slashed r.data) := by
    apply String.ext
    rw [ReplaceAll_backslash_data]
  simp only [blobName, h, ne_eq, not_false_eq_true, ↓reduceIte, hr]

theorem append_ne_empty (p s : String) (h : s ≠ "") : p ++ s ≠ "" := by
  intro hc
  have := congrArg String.data hc
  simp only [String.data_append] at this
  have h2 : s.data = [] := (List.append_eq_nil.mp this).2
  exact h (String.ext h2)

theorem TrimSuffix_slash_no_slash (p : String) (h : strings_HasSuffix p "//" = false) :
    strings_HasSuffix (strings_TrimSuffix p "/") "/" = false := by
  by_cases hs : strings_HasSuffix p "/" = true
  · have h1 : ("/" : String).data = ['/'] := rfl
    have h2 : ("//" : String).data = ['/', '/'] := rfl
    have hs' := hs
    simp only [strings_HasSuffix, h1, List.isSuffixOf_iff_suffix] at hs'
    obtain ⟨q, hq⟩ := hs'
    have hp : p = String.mk q ++ "/" := by
      apply String.ext
      simp [String.data_append, h1, hq]
    rw [hp, TrimSuffix_append]
    by_contra hc
    have hc : strings_HasSuffix (String.mk q) "/" = true := by simpa using hc
    simp only [strings_HasSuffix, h1, List.isSuffixOf_iff_suffix] at hc
    obtain ⟨q', hq'⟩ := hc
    have : strings_HasSuffix p "//" = true := by
      simp only [strings_HasSuffix, h2, List.isSuffixOf_iff_suffix]
      refine ⟨q', ?_⟩
      rw [← hq, ← hq']
      simp
    rw [this] at h
    exact Bool.noConfusion h
  · have hs : strings_HasSuffix p "/" = false := by simpa using hs
    rw [TrimSuffix_of_not p "/" hs]
    exact hs

/-! ## The claims -/

/-- C1: with an empty sub-folder, the blob name computed from a relative path is
that path with each backslash replaced by a forward slash, so it holds no
backslash; every upload `uploadFolder` attempts is for a path whose blob name is
the `filepath.Rel` result so rewritten; the tree with `a.txt` and
`sub/b.txt` gives exactly the keys `a.txt` and `sub/b.txt`, on a host whose
separator is `/` and on one whose separator is `\`. -/
theorem uploadFolder_key_without_subfolder :
    (∀ (config : Config) (r : String), config.SubFolder = "" →
      blobName config r = String.mk (slashed r.data) ∧ '\\' ∉ (blobName config r).data) ∧
    (∀ (w : World) (config : Config), config.SubFolder = "" →
      ∀ x ∈ uploadsOf (uploadFolder w config).2,
        ∃ r, w.rel config.LocalFolder x.1 = .ok r ∧ x.2 = String.mk (slashed r.data) ∧
          '\\' ∉ x.2.data) ∧
    (uploadsOf (uploadFolder (hostWorld "/" exampleTree) (exampleConfig "")).2).map Prod.snd =
      ["a.txt", "sub/b.txt"] ∧
    (uploadsOf (uploadFolder (hostWorld "\\" exampleTree) (exampleConfig "")).2).map Prod.snd =
      ["a.txt", "sub/b.txt"] := by
  refine ⟨?_, ?_, by decide, by decide⟩
  · intro config r hsub
    rw [blobName_empty config r hsub]
    exact ⟨rfl, slashed_no_backslash r.data⟩
  intro w config hsub x hx
  rcases hc : createBlobClient w config with ⟨err | client, t⟩
  · rw [uploadFolder_of_no_client w config err t hc] at hx
    have := (createBlobClient_uploads w config).1
    rw [hc] at this
    rw [this] at hx
    simp at hx
  · rw [(uploadFolder_of_client w config client t hc).2.1] at hx
    obtain ⟨r, hr, hb⟩ := runVisits_uploads w config client _ x hx
    refine ⟨r, hr, ?_, ?_⟩
    · rw [hb, blobName_empty config r hsub]
    · rw [hb, blobName_empty config r hsub]
      exact slashed_no_backslash r.data

/-- Witness for C1 on the host whose separator is `\`. -/
theorem uploadFolder_key_without_subfolder_witness :
    (exampleConfig "").SubFolder = "" ∧
    ∀ x ∈ uploadsOf (uploadFolder (hostWorld "\\" exampleTree) (exampleConfig "")).2,
      ∃ r, (hostWorld "\\" exampleTree).rel (exampleConfig "").LocalFolder x.1 = .ok r ∧
        x.2 = String.mk (slashed r.data) ∧ '\\' ∉ x.2.data :=
  ⟨rfl, uploadFolder_key_without_subfolder.2.1 (hostWorld "\\" exampleTree) (exampleConfig "") rfl⟩

/-- C2: for a non-empty sub-folder `p` that does not end in a slash, the blob
name computed with `p` and the one computed with `p/` are both `p/` followed by
the relative path with backslashes replaced, so `uploadFolder` behaves the same
under both; the sub-folders `docs` and `docs/` both give the keys `docs/a.txt`
and `docs/sub/b.txt`. -/
theorem blobName_subfolder_trailing_slash :
    (∀ (config : Config) (p r : String), p ≠ "" → strings_HasSuffix p "/" = false →
      blobName { config with SubFolder := p } r = p ++ "/" ++ String.mk (slashed r.data) ∧
      blobName { config with SubFolder := p ++ "/" } r =
        p ++ "/" ++ String.mk (slashed r.data)) ∧
    (∀ (w : World) (config : Config) (p : String), p ≠ "" → strings_HasSuffix p "/" = false →
      uploadFolder w { config with SubFolder := p ++ "/" } =
        uploadFolder w { config with SubFolder := p }) ∧
    (uploadsOf (uploadFolder (hostWorld "/" exampleTree) (exampleConfig "docs")).2).map Prod.snd =
      ["docs/a.txt", "docs/sub/b.txt"] ∧
    (uploadsOf (uploadFolder (hostWorld "/" exampleTree) (exampleConfig "docs/")).2).map Prod.snd =
      ["docs/a.txt", "docs/sub/b.txt"] ∧
    (uploadsOf (uploadFolder (hostWorld "\\" exampleTree) (exampleConfig "docs")).2).map Prod.snd =
      ["docs/a.txt", "docs/sub/b.txt"] ∧
    (uploadsOf (uploadFolder (hostWorld "\\" exampleTree) (exampleConfig "docs/")).2).map Prod.snd =
      ["docs/a.txt", "docs/sub/b.txt"] := by
  have key : ∀ (config : Config) (p r : String), p ≠ "" → strings_HasSuffix p "/" = false →
      blobName { config with SubFolder := p } r = p ++ "/" ++ String.mk (slashed r.data) ∧
      blobName { config with SubFolder := p ++ "/" } r =
        p ++ "/" ++ String.mk (slashed r.data) := by
    intro config p r hp hs
    constructor
    · rw [blobName_nonempty _ r (by simpa using hp)]
      simp only [TrimSuffix_of_not p "/" hs]
    · rw [blobName_nonempty _ r (by exact append_ne_empty p "/" (by decide))]
      simp only [TrimSuffix_append]
  refine ⟨key, ?_, by decide, by decide, by decide, by decide⟩
  intro w config p hp hs
  have hfn : ∀ c, walkFn w { config with SubFolder := p ++ "/" } c =
      walkFn w { config with SubFolder := p } c := by
    intro c
    funext path d err
    have hb : ∀ r, blobName { config with SubFolder := p ++ "/" } r =
        blobName { config with SubFolder := p } r := by
      intro r
      rw [(key config p r hp hs).1, (key config p r hp hs).2]
    simp only [walkFn, hb]
  have hcl : createBlobClient w { config with SubFolder := p ++ "/" } =
      createBlobClient w { config with SubFolder := p } := rfl
  simp only [uploadFolder, hcl, hfn]

/-- Witness for C2 at the sub-folder `docs` and the relative path `sub\b.txt`. -/
theorem blobName_subfolder_trailing_slash_witness :
    ("docs" : String) ≠ "" ∧ strings_HasSuffix "docs" "/" = false ∧
    blobName { exampleConfig "" with SubFolder := "docs" } "sub\\b.txt" =
      "docs" ++ "/" ++ String.mk (slashed "sub\\b.txt".data) ∧
    blobName { exampleConfig "" with SubFolder := "docs" ++ "/" } "sub\\b.txt" =
      "docs" ++ "/" ++ String.mk (slashed "sub\\b.txt".data) :=
  ⟨by decide, by decide,
    blobName_subfolder_trailing_slash.1 (exampleConfig "") "docs" "sub\\b.txt"
      (by decide) (by decide)⟩

/-- C3 (as amended): for a non-empty sub-folder that does not end in two
slashes, the blob name is `q/` followed by the relative path with backslashes
replaced, where `q` is the sub-folder without its trailing slash, if it has one,
and `q` does not end in a slash. -/
theorem blobName_single_slash_join (config : Config) (r : String)
    (hne : config.SubFolder ≠ "") (h : strings_HasSuffix config.SubFolder "//" = false) :
    blobName config r =
        strings_TrimSuffix config.SubFolder "/" ++ "/" ++ String.mk (slashed r.data) ∧
      strings_HasSuffix (strings_TrimSuffix config.SubFolder "/") "/" = false :=
  ⟨blobName_nonempty config r hne, TrimSuffix_slash_no_slash config.SubFolder h⟩

/-- Witness for C3 (as amended) at the sub-folder `docs/`. -/
theorem blobName_single_slash_join_witness :
    (exampleConfig "docs/").SubFolder ≠ "" ∧
    strings_HasSuffix (exampleConfig "docs/").SubFolder "//" = false ∧
    blobName (exampleConfig "docs/") "sub\\b.txt" =
      strings_TrimSuffix (exampleConfig "docs/").SubFolder "/" ++ "/" ++
        String.mk (slashed "sub\\b.txt".data) ∧
    strings_HasSuffix (strings_TrimSuffix (exampleConfig "docs/").SubFolder "/") "/" = false :=
  ⟨by decide, by decide,
    blobName_single_slash_join (exampleConfig "docs/") "sub\\b.txt" (by decide) (by decide)⟩

/-- C3 fails as stated: with the sub-folder `docs//` the blob name of `a.txt` is
`docs//a.txt`, which is not `q/a.txt` for any `q` that does not end in a slash. -/
theorem blobName_double_slash_counterexample :
    (exampleConfig "docs//").SubFolder ≠ "" ∧
    blobName (exampleConfig "docs//") "a.txt" = "docs//a.txt" ∧
    ¬ ∃ q : String, strings_HasSuffix q "/" = false ∧
      blobName (exampleConfig "docs//") "a.txt" = q ++ "/" ++ String.mk (slashed "a.txt".data) := by
  refine ⟨by decide, by decide, ?_⟩
  rintro ⟨q, hq, he⟩
  have hb : blobName (exampleConfig "docs//") "a.txt" = "docs/" ++ "/" ++ "a.txt" := by decide
  have hs : String.mk (slashed "a.txt".data) = "a.txt" := by decide
  rw [hb, hs] at he
  have hd := congrArg String.data he
  simp only [String.data_append] at hd
  have hq' : q = "docs/" := by
    apply String.ext
    exact (List.append_cancel_right (List.append_cancel_right hd)).symm
  rw [hq'] at hq
  exact absurd hq (by decide)

/-- C4: when the walk yields the visits `pre`, then the file `c`, then `post`,
nothing before `c` fails (no error is reported, every file of `pre` is
uploaded) and the upload of `c` fails with `e`, then `uploadFolder` has attempted
exactly the uploads of the files of `pre` followed by `c`, in that order, which
are the first `N` files of the walk for `N` the position of `c` among them; the
files of `pre` are the completed uploads; and the error returned is
`failed to upload <path of c>: <e>`. -/
theorem uploadFolder_first_failure (w : World) (config : Config) (client : Client)
    (t : Trace) (pre post : List Visit) (c : Visit) (r : String) (e : Error)
    (hclient : createBlobClient w config = (.ok client, t))
    (hwalk : walkVisits w config.LocalFolder = pre ++ c :: post)
    (hpre : ∀ v ∈ pre, v.err = none ∧
      (v.isFile = true → ∃ r, w.rel config.LocalFolder v.path = .ok r ∧
        uploadFile w client config.ContainerName v.path (blobName config r) = none))
    (hc : c.isFile = true)
    (hrel : w.rel config.LocalFolder c.path = .ok r)
    (hfail : uploadFile w client config.ContainerName c.path (blobName config r) = some e) :
    uploadsOf (uploadFolder w config).2 = filesOf w config pre ++ [(c.path, blobName config r)] ∧
      uploadsOf (uploadFolder w config).2 =
        (filesOf w config (walkVisits w config.LocalFolder)).take
          ((filesOf w config pre).length + 1) ∧
      completedOf (uploadFolder w config).2 = filesOf w config pre ∧
      (uploadFolder w config).1 =
        some (.msg ("failed to upload " ++ c.path ++ ": " ++ e.text)) := by
  obtain ⟨h1, h2, h3⟩ := uploadFolder_of_client w config client t hclient
  have hentry := walkVisits_entry w config.LocalFolder
  rw [hwalk] at hentry
  have hclean := runVisits_clean w config client pre (fun v hv =>
    ⟨(hpre v hv).1, hentry v (List.mem_append_left _ hv) (hpre v hv).1, (hpre v hv).2⟩)
  -- the step at `c`
  have hcerr : c.err = none := by
    unfold Visit.isFile at hc
    cases he : c.err with
    | none => rfl
    | some x => rw [he] at hc; simp at hc
  obtain ⟨d, hd⟩ := Option.ne_none_iff_exists'.mp
    (hentry c (List.mem_append_right _ (List.mem_cons_self _ _)) hcerr)
  have hdir : d.IsDir = false := by
    simpa [Visit.isFile, hcerr, hd] using hc
  have hstep : walkFn w config client c.path c.entry (c.err.map Error.msg) =
      (some (.msg ("failed to upload " ++ c.path ++ ": " ++ e.text)),
        [.uploadFile config.ContainerName c.path (blobName config r) (some e)]) := by
    rw [hcerr, hd]
    exact walkFn_file_fail w config client c.path d r e hdir hrel hfail
  have hrun : runVisits (walkFn w config client) (pre ++ c :: post) =
      (some (.msg ("failed to upload " ++ c.path ++ ": " ++ e.text)),
        (runVisits (walkFn w config client) pre).2 ++
          [.uploadFile config.ContainerName c.path (blobName config r) (some e)]) := by
    rw [runVisits_append_none _ pre (c :: post) hclean.1,
      runVisits_cons_some _ c post _ _ hstep]
  have hk : keyOf w config c = blobName config r := by simp [keyOf, hrel]
  have hups : uploadsOf (uploadFolder w config).2 =
      filesOf w config pre ++ [(c.path, blobName config r)] := by
    rw [h2, hwalk, hrun]
    simp [uploadsOf_append, hclean.2.1, uploadsOf]
  refine ⟨hups, ?_, ?_, ?_⟩
  · rw [hups, hwalk, filesOf_append, filesOf_cons_file w config c post hc, hk,
      List.take_append_eq_append_take]
    simp
  · rw [h3, hwalk, hrun]
    simp [completedOf_append, hclean.2.2, completedOf]
  · rw [h1, hwalk, hrun]

/-- Witness for C4: on the three-file tree the upload of the second file,
`sub/b.txt`, fails; `a.txt` and `sub/b.txt` are attempted, `z.txt` is not. -/
theorem uploadFolder_first_failure_witness :
    uploadsOf (uploadFolder failingWorld (exampleConfig "")).2 =
      [("data/a.txt", "a.txt"), ("data/sub/b.txt", "sub/b.txt")] ∧
    uploadsOf (uploadFolder failingWorld (exampleConfig "")).2 =
      (filesOf failingWorld (exampleConfig "")
        (walkVisits failingWorld (exampleConfig "").LocalFolder)).take 2 ∧
    completedOf (uploadFolder failingWorld (exampleConfig "")).2 = [("data/a.txt", "a.txt")] ∧
    (uploadFolder failingWorld (exampleConfig "")).1 =
      some (.msg "failed to upload data/sub/b.txt: 503 Server Busy") :=
  uploadFolder_first_failure failingWorld (exampleConfig "")
    (.fromServiceURL "https://acct.blob.core.windows.net/")
    [.newDefaultAzureCredential, .newClient "https://acct.blob.core.windows.net/"]
    [⟨"data", some ⟨"data", true⟩, none⟩, ⟨"data/a.txt", some ⟨"a.txt", false⟩, none⟩,
      ⟨"data/sub", some ⟨"sub", true⟩, none⟩]
    [⟨"data/z.txt", some ⟨"z.txt", false⟩, none⟩]
    ⟨"data/sub/b.txt", some ⟨"b.txt", false⟩, none⟩ "sub/b.txt" (.msg "503 Server Busy")
    rfl (by decide)
    (by
      intro v hv
      simp only [List.mem_cons, List.mem_singleton, List.not_mem_nil, or_false] at hv
      rcases hv with rfl | rfl | rfl
      · exact ⟨rfl, fun h => absurd h (by decide)⟩
      · exact ⟨rfl, fun _ => ⟨"a.txt", rfl, by decide⟩⟩
      · exact ⟨rfl, fun h => absurd h (by decide)⟩)
    (by decide) rfl (by decide)

/-- C5: a configuration with an empty local folder, an empty container name, or
neither account nor connection string is rejected by `validateConfig` in every
world (the file system is not consulted), with the error of the first violated
rule in the order local folder, container name, credentials; `main` then ends in
`log.Fatalf` with an empty trace, while `uploadFolder` always leaves a non-empty
trace, so it was not called. -/
theorem validateConfig_missing_field (w : World) (config : Config)
    (h : config.LocalFolder = "" ∨ config.ContainerName = "" ∨
      (config.StorageAccount = "" ∧ config.ConnectionString = "")) :
    (∃ err, validateConfig w config = some err ∧
      (∀ w2 : World, validateConfig w2 config = some err) ∧
      (∀ flags : Flags, flags.help = false →
        loadConfig w flags.account flags.container flags.subfolder flags.folder
          flags.connection = config →
        main w flags = (.fatal ("Configuration error: " ++ err.text), []))) ∧
    (config.LocalFolder = "" → validateConfig w config =
      some (.msg "local folder is required (use -folder or LOCAL_FOLDER env var)")) ∧
    (config.LocalFolder ≠ "" → config.ContainerName = "" → validateConfig w config =
      some (.msg
        "container name is required (use -container or AZURE_STORAGE_CONTAINER env var)")) ∧
    (config.LocalFolder ≠ "" → config.ContainerName ≠ "" → validateConfig w config =
      some (.msg "either storage account name (use -account or AZURE_STORAGE_ACCOUNT env var) or connection string is required")) ∧
    (∀ (w2 : World) (config2 : Config), (uploadFolder w2 config2).2 ≠ []) := by
  have hmain : ∀ err, validateConfig w config = some err → ∀ flags : Flags, flags.help = false →
      loadConfig w flags.account flags.container flags.subfolder flags.folder
        flags.connection = config →
      main w flags = (.fatal ("Configuration error: " ++ err.text), []) := by
    intro err hv flags hh hl
    simp [main, hh, hl, hv]
  refine ⟨?_, ?_, ?_, ?_, uploadFolder_trace_ne_nil⟩
  · by_cases h1 : config.LocalFolder = ""
    · have hv : ∀ w2 : World, validateConfig w2 config = some (.msg
          "local folder is required (use -folder or LOCAL_FOLDER env var)") := by
        intro w2; simp [validateConfig, h1]
      exact ⟨_, hv w, hv, hmain _ (hv w)⟩
    · by_cases h2 : config.ContainerName = ""
      · have hv : ∀ w2 : World, validateConfig w2 config = some (.msg
            "container name is required (use -container or AZURE_STORAGE_CONTAINER env var)") := by
          intro w2; simp [validateConfig, h1, h2]
        exact ⟨_, hv w, hv, hmain _ (hv w)⟩
      · have h3 : config.StorageAccount = "" ∧ config.ConnectionString = "" := by
          rcases h with h | h | h
          · exact absurd h h1
          · exact absurd h h2
          · exact h
        have hv : ∀ w2 : World, validateConfig w2 config = some (.msg "either storage account name (use -account or AZURE_STORAGE_ACCOUNT env var) or connection string is required") := by
          intro w2; simp [validateConfig, h1, h2, h3.1, h3.2]
        exact ⟨_, hv w, hv, hmain _ (hv w)⟩
  · intro h1; simp [validateConfig, h1]
  · intro h1 h2; simp [validateConfig, h1, h2]
  · intro h1 h2
    have h3 : config.StorageAccount = "" ∧ config.ConnectionString = "" := by
      rcases h with h | h | h
      · exact absurd h h1
      · exact absurd h h2
      · exact h
    simp [validateConfig, h1, h2, h3.1, h3.2]

/-- Witness for C5: no container name, on a host where everything else is in
place. -/
theorem validateConfig_missing_field_witness :
    validateConfig (hostWorld "/" exampleTree) { exampleConfig "" with ContainerName := "" } =
      some (.msg
        "container name is required (use -container or AZURE_STORAGE_CONTAINER env var)") ∧
    main (hostWorld "/" exampleTree) ⟨"acct", "", "", "data", "", false⟩ =
      (.fatal "Configuration error: container name is required (use -container or AZURE_STORAGE_CONTAINER env var)", []) :=
  have h := validateConfig_missing_field (hostWorld "/" exampleTree)
    { exampleConfig "" with ContainerName := "" } (Or.inr (Or.inl rfl))
  ⟨h.2.2.1 (by decide) rfl, by
    obtain ⟨err, he, -, hm⟩ := h.1
    have := hm ⟨"acct", "", "", "data", "", false⟩ rfl (by decide)
    have he2 : err = .msg
        "container name is required (use -container or AZURE_STORAGE_CONTAINER env var)" := by
      have h2 := h.2.2.1 (by decide) rfl
      rw [he] at h2
      exact Option.some.inj h2
    rw [this, he2]
    rfl⟩

/-- C6: a configuration with a non-empty local folder and container name, with
an account or a connection string (or both), whose local folder `os.Stat` finds,
passes `validateConfig`. -/
theorem validateConfig_accepts (w : World) (config : Config)
    (hfolder : config.LocalFolder ≠ "") (hcontainer : config.ContainerName ≠ "")
    (hcred : config.StorageAccount ≠ "" ∨ config.ConnectionString ≠ "")
    (hstat : ∃ isDir, w.stat config.LocalFolder = .ok isDir) :
    validateConfig w config = none := by
  obtain ⟨isDir, hs⟩ := hstat
  have h3 : ¬ (config.StorageAccount = "" ∧ config.ConnectionString = "") := by
    rintro ⟨ha, hb⟩
    rcases hcred with h | h
    · exact h ha
    · exact h hb
  simp [validateConfig, hfolder, hcontainer, h3, hs, StatResult.isNotExist]

/-- Witness for C6: both an account and a connection string are given. -/
theorem validateConfig_accepts_witness :
    validateConfig (hostWorld "/" exampleTree)
      { exampleConfig "" with ConnectionString := "UseDevelopmentStorage=true" } = none :=
  validateConfig_accepts (hostWorld "/" exampleTree)
    { exampleConfig "" with ConnectionString := "UseDevelopmentStorage=true" }
    (by decide) (by decide) (Or.inl (by decide)) ⟨true, rfl⟩

/-- C7 (as amended): when the local folder names a non-directory, the walk
visits that one entry and `uploadFolder` attempts exactly one upload: of the
path itself, under the blob name computed from `filepath.Rel` of the folder
against itself. -/
theorem uploadFolder_non_directory (w : World) (config : Config) (name : String)
    (client : Client) (t : Trace) (r : String)
    (hroot : w.lstat config.LocalFolder = .ok (.file name))
    (hclient : createBlobClient w config = (.ok client, t))
    (hrel : w.rel config.LocalFolder config.LocalFolder = .ok r) :
    walkVisits w config.LocalFolder = [⟨config.LocalFolder, some ⟨name, false⟩, none⟩] ∧
    uploadsOf (uploadFolder w config).2 = [(config.LocalFolder, blobName config r)] := by
  have hv : walkVisits w config.LocalFolder =
      [⟨config.LocalFolder, some ⟨name, false⟩, none⟩] := by
    simp [walkVisits, hroot, visits]
  refine ⟨hv, ?_⟩
  rw [(uploadFolder_of_client w config client t hclient).2.1, hv]
  cases hu : uploadFile w client config.ContainerName config.LocalFolder (blobName config r) with
  | none =>
    have := walkFn_file_ok w config client config.LocalFolder ⟨name, false⟩ r rfl hrel hu
    simp [runVisits, this, uploadsOf]
  | some e =>
    have := walkFn_file_fail w config client config.LocalFolder ⟨name, false⟩ r e rfl hrel hu
    simp [runVisits, this, uploadsOf]

/-- Witness for C7 (as amended): the local folder `data` is a regular file. -/
theorem uploadFolder_non_directory_witness :
    walkVisits (hostWorld "/" (.file "data")) (exampleConfig "docs").LocalFolder =
      [⟨"data", some ⟨"data", false⟩, none⟩] ∧
    uploadsOf (uploadFolder (hostWorld "/" (.file "data")) (exampleConfig "docs")).2 =
      [("data", "docs/.")] :=
  uploadFolder_non_directory (hostWorld "/" (.file "data")) (exampleConfig "docs") "data"
    (.fromServiceURL "https://acct.blob.core.windows.net/")
    [.newDefaultAzureCredential, .newClient "https://acct.blob.core.windows.net/"] "."
    rfl rfl rfl

/-- C7 fails as stated: when the local folder `data` exists and is a regular
file, validation passes and `uploadFolder` attempts one upload, of `data` itself
under the blob name `.`. -/
theorem uploadFolder_non_directory_counterexample :
    (hostWorld "/" (.file "data")).stat (exampleConfig "").LocalFolder = .ok false ∧
    (hostWorld "/" (.file "data")).lstat (exampleConfig "").LocalFolder = .ok (.file "data") ∧
    validateConfig (hostWorld "/" (.file "data")) (exampleConfig "") = none ∧
    uploadsOf (uploadFolder (hostWorld "/" (.file "data")) (exampleConfig "")).2 =
      [("data", ".")] ∧
    uploadsOf (uploadFolder (hostWorld "/" (.file "data")) (exampleConfig "")).2 ≠ [] := by
  refine ⟨rfl, rfl, by decide, by decide, by decide⟩

/-- C8: replacing the outcome of the create-container call by any other leaves
the result of `uploadFolder`, the uploads it attempts and the uploads it
completes unchanged. -/
theorem uploadFolder_createContainer_nonfatal (w : World) (config : Config)
    (outcome : Client → String → Option String) :
    (uploadFolder { w with createContainer := outcome } config).1 = (uploadFolder w config).1 ∧
    uploadsOf (uploadFolder { w with createContainer := outcome } config).2 =
      uploadsOf (uploadFolder w config).2 ∧
    completedOf (uploadFolder { w with createContainer := outcome } config).2 =
      completedOf (uploadFolder w config).2 := by
  have hcl : createBlobClient { w with createContainer := outcome } config =
      createBlobClient w config := rfl
  have hfn : ∀ c, walkFn { w with createContainer := outcome } config c = walkFn w config c :=
    fun _ => rfl
  have hwd : ∀ fn, WalkDir { w with createContainer := outcome } config.LocalFolder fn =
      WalkDir w config.LocalFolder fn := fun _ => rfl
  have hu := createBlobClient_uploads w config
  rcases hc : createBlobClient w config with ⟨err | client, t⟩
  · simp [uploadFolder, hcl, hc]
  · rw [hc] at hu
    simp only [uploadFolder, hcl, hc, hfn, hwd]
    refine ⟨trivial, ?_, ?_⟩
    · cases outcome client config.ContainerName <;>
        cases w.createContainer client config.ContainerName <;>
          simp [uploadsOf_append, uploadsOf, hu.1]
    · cases outcome client config.ContainerName <;>
        cases w.createContainer client config.ContainerName <;>
          simp [completedOf_append, completedOf, hu.2]

/-- C9: every field of the configuration `loadConfig` returns is the explicit
value when that is non-empty, and otherwise the value of the field's own
environment variable, the empty string when the variable is not set. -/
theorem loadConfig_fields (w : World)
    (account container subFolder folder connectionString : String) :
    (loadConfig w account container subFolder folder connectionString).StorageAccount =
      (if account ≠ "" then account else (w.env "AZURE_STORAGE_ACCOUNT").getD "") ∧
    (loadConfig w account container subFolder folder connectionString).ContainerName =
      (if container ≠ "" then container else (w.env "AZURE_STORAGE_CONTAINER").getD "") ∧
    (loadConfig w account container subFolder folder connectionString).SubFolder =
      (if subFolder ≠ "" then subFolder else (w.env "AZURE_STORAGE_SUBFOLDER").getD "") ∧
    (loadConfig w account container subFolder folder connectionString).LocalFolder =
      (if folder ≠ "" then folder else (w.env "LOCAL_FOLDER").getD "") ∧
    (loadConfig w account container subFolder folder connectionString).ConnectionString =
      (if connectionString ≠ "" then connectionString
        else (w.env "AZURE_STORAGE_CONNECTION_STRING").getD "") := by
  have hg : ∀ key, os_Getenv w key = (w.env key).getD "" := by
    intro key
    unfold os_Getenv
    cases w.env key <;> rfl
  simp [loadConfig, getValueOrEnv, hg]

/-- C10: for a configuration whose required fields are all present,
`validateConfig` returns an error exactly when `os.Stat` reports that the local
folder does not exist; when `os.Stat` fails with any other error it returns
nil. -/
theorem validateConfig_stat_other_error (w : World) (config : Config)
    (hfolder : config.LocalFolder ≠ "") (hcontainer : config.ContainerName ≠ "")
    (hcred : config.StorageAccount ≠ "" ∨ config.ConnectionString ≠ "") :
    (∀ text, w.stat config.LocalFolder = .otherErr text → validateConfig w config = none) ∧
    (validateConfig w config ≠ none ↔ w.stat config.LocalFolder = .notExist) := by
  have h3 : ¬ (config.StorageAccount = "" ∧ config.ConnectionString = "") := by
    rintro ⟨ha, hb⟩
    rcases hcred with h | h
    · exact h ha
    · exact h hb
  constructor
  · intro text hs
    simp [validateConfig, hfolder, hcontainer, h3, hs, StatResult.isNotExist]
  · cases hs : w.stat config.LocalFolder <;>
      simp [validateConfig, hfolder, hcontainer, h3, hs, StatResult.isNotExist]

/-- Witness for C10: `os.Stat` fails with "permission denied". -/
theorem validateConfig_stat_other_error_witness :
    statDeniedWorld.stat (exampleConfig "").LocalFolder = .otherErr "permission denied" ∧
    validateConfig statDeniedWorld (exampleConfig "") = none :=
  ⟨rfl, (validateConfig_stat_other_error statDeniedWorld (exampleConfig "")
    (by decide) (by decide) (Or.inl (by decide))).1 "permission denied" rfl⟩

end Upload
